/-
Verification of the gracevisor App supervisor against its design document.

The development shallowly embeds the two source files of the repository:
  * the App component (reconciliation loop `startInstanceUpdater`, request
    router `reserveInstance`/`ServeHTTP`, control entry `StartNewInstance`,
    status reporter `Report` with its `InstanceStatusSort`), and
  * the configuration validation (`AppConfig.clean`, `Config.clean`,
    `hasPortBadge` and the defaulting constants) from gracevisord/config.go.

Go machine integers: `restartCount` and `MaxRetries` are Go `int`, embedded
as `Int` (their values never approach the word size, but `max_retries` may
be negative in a YAML file, which matters below).  `ExternalPort` and other
ports are `uint32`, embedded as `Nat` (only equality with small constants is
ever used).  Instances are identified by their `id` (the `instanceId`
counter is strictly monotone, so ids are unique per App and pointer equality
on instances coincides with id equality).

The Instance source file is not part of the reviewed sources; the pieces of
it that the App code uses (the numeric status constants, `Stop()`, and the
status returned by `UpdateStatus()`) are modelled from the spec where they
are introduced, and each such definition is marked `Modelled from the spec`.
-/
import Mathlib

/-- Modelled from the spec: numeric instance status constants from the
Instance source file (not under review).  §4.5 and the sort comment list the
non-terminal ("interesting") states as serving, starting, stopping, and the
comparison `status <= InstanceStatusStopping` in `InstanceStatusSort.Less`
must pick out exactly those three, so they receive the three smallest
values, in the listed order. -/
def instanceStatusServing : Nat := 0

/-- Modelled from the spec: see `instanceStatusServing`. -/
def instanceStatusStarting : Nat := 1

/-- Modelled from the spec: see `instanceStatusServing`. -/
def instanceStatusStopping : Nat := 2

/-- Modelled from the spec: terminal state `Exited` (any value above
`instanceStatusStopping`; the concrete choice is irrelevant to every
theorem below except that the terminal constants are distinct). -/
def instanceStatusExited : Nat := 3

/-- Modelled from the spec: terminal state `Failed`. -/
def instanceStatusFailed : Nat := 4

/-- Modelled from the spec: terminal state `TimedOut`. -/
def instanceStatusTimedOut : Nat := 5

/-- Modelled from the spec: terminal state `Killed`. -/
def instanceStatusKilled : Nat := 6

/-- One Instance, as far as the App code reads it: its id, its numeric
status and its in-flight request counter. -/
structure Inst where
  id : Nat
  status : Nat
  inFlight : Nat
deriving Repr, DecidableEq

/-- The mutable per-App state touched by `startInstanceUpdater`,
`reserveInstance`, `StartNewInstance` and `Report`: the append-only
instance list, the `activeInstance` pointer (by id), the closed-over
`restartCount` of the updater goroutine, and the `instanceId` counter. -/
structure AppState where
  instances : List Inst
  active : Option Nat
  restartCount : Int
  nextId : Nat
deriving Repr, DecidableEq

/-- Events emitted by one reconciliation tick, in program order. -/
inductive TickEv where
  | updated (id status : Nat)
  | cleared
  | reset
  | lockT
  | promoted (id : Nat) (prev : Option Nat)
  | unlockT
  | stopCalled (id : Nat)
  | restartAttempt
  | started (id : Nat)
deriving Repr, DecidableEq

/-- Write the status returned by `instance.UpdateStatus()` back into the
instance record (in Go the instance mutates itself; ids are unique). -/
def writeStatus (s : AppState) (i st : Nat) : AppState :=
  { s with instances := s.instances.map fun k => if k.id = i then { k with status := st } else k }

/-- Modelled from the spec: `Instance.Stop()` (Instance source not under
review) requests the graceful transition to `Stopping` (§4.2). -/
def stopMark (s : AppState) (i : Nat) : AppState :=
  { s with instances := s.instances.map fun k => if k.id = i then { k with status := instanceStatusStopping } else k }

/-- One iteration of the inner `for _, instance := range a.instances` body
of `startInstanceUpdater` (source lines 83-104).  `upd inst.id` is the
status that `instance.UpdateStatus()` returns in this tick.  Besides the
final state the function returns the list of intermediate states after each
mutation (what a concurrent reader of `activeInstance` could observe
between primitive steps) and the emitted events. -/
def stepInstance (upd : Nat → Nat) (s : AppState) (inst : Inst) :
    AppState × List AppState × List TickEv :=
  let st := upd inst.id
  let s1 := writeStatus s inst.id st
  if s1.active = some inst.id then
    if st ≠ instanceStatusServing then
      let s2 := { s1 with active := none }
      (s2, [s1, s2], [.updated inst.id st, .cleared])
    else
      (s1, [s1], [.updated inst.id st])
  else
    if st = instanceStatusServing then
      let s2 := { s1 with restartCount := 0 }
      let s3 := { s2 with active := some inst.id }
      match s2.active with
      | some p =>
        let s4 := stopMark s3 p
        (s4, [s1, s2, s3, s4],
          [.updated inst.id st, .reset, .lockT, .promoted inst.id (some p),
            .unlockT, .stopCalled p])
      | none =>
        (s3, [s1, s2, s3],
          [.updated inst.id st, .reset, .lockT, .promoted inst.id none, .unlockT])
    else
      (s1, [s1], [.updated inst.id st])

/-- One fold step of the per-tick scan: run the loop body on the next
instance, append its events, and overwrite `lastStatus` with the status
this instance's `UpdateStatus()` returned — so after the whole loop
`lastStatus` holds the status of the *last* instance only. -/
def scanStep (upd : Nat → Nat) (acc : AppState × List TickEv × Int) (inst : Inst) :
    AppState × List TickEv × Int :=
  let r := stepInstance upd acc.1 inst
  (r.1, acc.2.1 ++ r.2.2, ((upd inst.id : Nat) : Int))

/-- The full scan (source lines 81-104): fold the loop body over the
instance slice, starting from `lastStatus = -1` and no events. -/
def scan (upd : Nat → Nat) (s : AppState) : AppState × List TickEv × Int :=
  s.instances.foldl (scanStep upd) (s, ([], -1))

/-- The condition of source line 106: the scan's `lastStatus` is `Exited`,
`Failed` or `TimedOut`. -/
def restartTrigger (last : Int) : Prop :=
  last = (instanceStatusExited : Int) ∨ last = (instanceStatusFailed : Int) ∨
    last = (instanceStatusTimedOut : Int)

instance : DecidablePred restartTrigger := fun _ => by unfold restartTrigger; infer_instance

/-- The restart decision after the scan (source lines 106-114).  `newOk`
tells whether `NewInstance` succeeds this tick (it leases a port and spawns
a process and may fail, e.g. on port exhaustion); the `instanceId` counter
is consumed by `atomic.AddUint32` before `NewInstance` can fail, and
`restartCount` is incremented before `StartNewInstance` is called. -/
def restartPhase (maxRetries : Int) (newOk : Bool) (last : Int) (s : AppState) :
    AppState × List TickEv :=
  if restartTrigger last then
    if s.restartCount < maxRetries then
      let s1 := { s with restartCount := s.restartCount + 1 }
      let nid := s1.nextId + 1
      let s2 := { s1 with nextId := nid }
      if newOk then
        ({ s2 with instances := s2.instances ++ [⟨nid, instanceStatusStarting, 0⟩] },
          [.restartAttempt, .started nid])
      else
        (s2, [.restartAttempt])
    else (s, [])
  else (s, [])

/-- One reconciliation tick: the scan followed by the restart decision. -/
def tick (maxRetries : Int) (newOk : Bool) (upd : Nat → Nat) (s : AppState) :
    AppState × List TickEv :=
  let r := scan upd s
  let r2 := restartPhase maxRetries newOk r.2.2 r.1
  (r2.1, r.2.1 ++ r2.2)

/-- A run of successive ticks; each tick supplies its own `UpdateStatus`
outcomes and `NewInstance` success flag. -/
def runStep (maxRetries : Int) (acc : AppState × List TickEv) (t : (Nat → Nat) × Bool) :
    AppState × List TickEv :=
  let r := tick maxRetries t.2 t.1 acc.1
  (r.1, acc.2 ++ r.2)

def runTicks (maxRetries : Int) (ticks : List ((Nat → Nat) × Bool)) (s : AppState) :
    AppState × List TickEv :=
  ticks.foldl (runStep maxRetries) (s, [])

/-- Recogniser for the restart-attempt event. -/
def isAttemptEv : TickEv → Bool
  | .restartAttempt => true
  | _ => false

/-- Recogniser for the promotion event. -/
def isPromotedEv : TickEv → Bool
  | .promoted _ _ => true
  | _ => false

/-- Number of restart attempts in an event trace. -/
def countAttempts (evs : List TickEv) : Nat := evs.countP isAttemptEv

/-- Events emitted on the request-serving path, in program order. -/
inductive ReqEv where
  | lockA
  | serveCalled (id : Nat)
  | unlockA
  | resp503
  | proxied (id : Nat) (ok : Bool)
  | doneCalled (id : Nat)
deriving Repr, DecidableEq

/-- `Instance.Serve()`: increments the in-flight counter of instance `i`. -/
def serveMark (s : AppState) (i : Nat) : AppState :=
  { s with instances := s.instances.map fun k => if k.id = i then { k with inFlight := k.inFlight + 1 } else k }

/-- `Instance.Done()`: decrements the in-flight counter of instance `i`. -/
def doneMark (s : AppState) (i : Nat) : AppState :=
  { s with instances := s.instances.map fun k => if k.id = i then { k with inFlight := k.inFlight - 1 } else k }

/-- `App.reserveInstance` (source lines 122-133): under the
active-instance lock, read `activeInstance`; fail with
`ErrNoActiveInstances` when it is nil, otherwise call `Serve()` on it and
return it.  The deferred unlock runs on both exits, after `Serve()`. -/
def reserveInstance (s : AppState) : AppState × Option Nat × List ReqEv :=
  match s.active with
  | none => (s, none, [.lockA, .unlockA])
  | some i => (serveMark s i, some i, [.lockA, .serveCalled i, .unlockA])

/-- `App.ServeHTTP` (source lines 166-192).  `proxyOk` records whether the
reverse proxy delivered the request or failed; the code does not branch on
it.  The deferred function calls `Done()` exactly when `reserveInstance`
returned an instance; on `ErrNoActiveInstances` the handler writes a 503
and returns without `Done()`. -/
def serveHTTP (s : AppState) (proxyOk : Bool) : AppState × List ReqEv :=
  let r := reserveInstance s
  match r.2.1 with
  | none => (r.1, r.2.2 ++ [.resp503])
  | some i => (doneMark r.1 i, r.2.2 ++ [.proxied i proxyOk, .doneCalled i])

/-- `InstanceStatusSort.Less` (source lines 31-38): "only bring serving,
starting and stopping apps to display, leave order of others unchanged". -/
def goLess (a b : Inst) : Bool :=
  if a.status ≤ instanceStatusStopping ∨ b.status ≤ instanceStatusStopping then
    decide (b.status < a.status)
  else
    false

/-- Stable insertion used to model Go's `sort.Stable`: the new element `x`
moves past every earlier element `y` it is not strictly before
(`lt x y = false`), so elements that compare equal keep their original
relative order. -/
def stableInsert (lt : Inst → Inst → Bool) (x : Inst) : List Inst → List Inst
  | [] => [x]
  | y :: ys => if lt x y then x :: y :: ys else y :: stableInsert lt x ys

/-- Model of Go's `sort.Stable`: a stable sort with respect to the `Less`
comparator (`sort.Stable` guarantees exactly sortedness plus stability, so
any stable sorting algorithm is an exact model). -/
def stableSort (lt : Inst → Inst → Bool) (l : List Inst) : List Inst :=
  l.foldl (fun acc x => stableInsert lt x acc) []

/-- The snapshot assembled by `App.Report`: app name, external host and
port, and the displayed instance summaries (modelled by the instance
records themselves). -/
structure ReportApp where
  name : String
  host : String
  port : Nat
  instances : List Inst
deriving Repr, DecidableEq

/-- `App.Report` (source lines 199-219).  Computes the display window
bound `from` on the current length, then calls
`sort.Stable(InstanceStatusSort(a.instances))` — sorting the App's own
slice in place — and reports the `instances[from:len]` tail of the sorted
slice.  Returns the report and the App state after the call (with the
reordered slice).  `displayN` is the non-negative count passed by the rpc
status command. -/
def appReport (nm hs : String) (pt : Nat) (s : AppState) (displayN : Nat) :
    ReportApp × AppState :=
  let start := if s.instances.length > displayN then s.instances.length - displayN else 0
  let sorted := stableSort goLess s.instances
  (⟨nm, hs, pt, sorted.drop start⟩, { s with instances := sorted })

/-- The sort key induced by `goLess`: `goLess a b = true` iff
`statusKey a < statusKey b` (proved below).  Terminal statuses share key 0;
the three non-terminal statuses get keys 1-3 in reverse numeric order. -/
def statusKey (i : Inst) : Nat :=
  if i.status ≤ instanceStatusStopping then 3 - i.status else 0

/-- The instances of `l` whose sort key is `k`, in original order. -/
def keyFilter (k : Nat) (l : List Inst) : List Inst :=
  l.filter fun i => statusKey i == k

/-- Errors of config validation (gracevisord/config.go lines 15-22). -/
inductive ConfigErr where
  | invalidPortRange
  | nameRequired
  | commandRequired
  | portBadgeRequired
  | invalidStopSignal
  | duplicateExternalPort
  | userLookupFailed
deriving Repr, DecidableEq

/-- The error string of `ErrPortBadgeRequired` (config.go line 19): the
code's own documentation of what `hasPortBadge` is meant to accept. -/
def errPortBadgeRequiredMsg : String := "App must have \x7bport\x7d in command or environment"

/-- `defaultHost` (config.go line 30). -/
def defaultHost : String := "localhost"

/-- `defaultRpcPort` (config.go line 31). -/
def defaultRpcPort : Nat := 9001

/-- `defaultExternalPort` (config.go line 32). -/
def defaultExternalPort : Nat := 8080

/-- `defaultStopSignal` (config.go line 34). -/
def defaultStopSignal : String := "TERM"

/-- `defaultMaxRetries` (config.go line 35). -/
def defaultMaxRetries : Int := 5

/-- `defaultPortFrom` (config.go line 27). -/
def defaultPortFrom : Nat := 10000

/-- `defaultPortTo` (config.go line 28). -/
def defaultPortTo : Nat := 11000

/-- `defaultMaxLogSize` (config.go line 39). -/
def defaultMaxLogSize : Int := 500

/-- `AppConfig` (config.go lines 83-103).  The run-as user is modelled by
its username (the only field of `UserConfig`). -/
structure AppConfig where
  name : String
  command : String
  environment : List String
  healthCheck : String
  stopSignal : Option String
  stopSignalName : String
  maxRetries : Int
  startTimeout : Int
  stopTimeout : Int
  internalHost : String
  externalHost : String
  externalPort : Nat
  stdoutLogFile : String
  stderrLogFile : String
  user : Option String
deriving Repr, DecidableEq

/-- `InternalPortsConfig` (config.go lines 65-68). -/
structure PortRangeCfg where
  fromPort : Nat
  toPort : Nat
deriving Repr, DecidableEq

/-- `RpcConfig` (config.go lines 175-178). -/
structure RpcCfg where
  host : String
  port : Nat
deriving Repr, DecidableEq

/-- `LoggerConfig` (config.go lines 192-198). -/
structure LoggerCfg where
  childLogDir : String
  logFile : String
  maxLogSize : Int
  maxLogsKept : Int
  maxLogAge : Int
deriving Repr, DecidableEq

/-- `Config` (config.go lines 218-224): nil pointers are `none`. -/
structure Config where
  portRange : Option PortRangeCfg
  apps : List AppConfig
  rpc : Option RpcCfg
  logger : Option LoggerCfg
  user : Option String
deriving Repr, DecidableEq

/-- The data of the global config that `AppConfig.clean` reads: the cleaned
child-log directory and the global run-as user. -/
structure GCtx where
  childLogDir : String
  guser : Option String
deriving Repr, DecidableEq

/-- Whether `pat` is a prefix of `l` (character lists). -/
def hasPrefixL : List Char → List Char → Bool
  | [], _ => true
  | _ :: _, [] => false
  | p :: ps, c :: cs => p == c && hasPrefixL ps cs

/-- Whether `pat` occurs as a contiguous substring of `l`. -/
def hasSubL (pat : List Char) : List Char → Bool
  | [] => hasPrefixL pat []
  | c :: cs => hasPrefixL pat (c :: cs) || hasSubL pat cs

/-- Go's `strings.Contains s pat`. -/
def goContains (s pat : String) : Bool := hasSubL pat.toList s.toList

/-- `AppConfig.hasPortBadge` (config.go lines 167-173): despite the error
string `errPortBadgeRequiredMsg`, it tests only the command — the
`Environment` field is never inspected. -/
def hasPortBadge (c : AppConfig) : Bool := goContains c.command "\x7bport\x7d"

/-- Modelled from the spec: the `Signals` name-to-signal table lives in a
source file not under review; only membership of a name matters here, and
the spec (§3, §6) has signals referred to by name with "TERM" the default.
The usual Unix signal names are included. -/
def signalNames : List String := ["TERM", "HUP", "INT", "QUIT", "KILL", "USR1", "USR2", "STOP"]

/-- The defaulting assignments of `AppConfig.clean` (config.go lines
117-146) gathered into one record update: each default reads only fields
that the preceding Go statements do not change, so this agrees with the
sequential in-place mutations. -/
def appDefaults (g : GCtx) (sigName : String) (c : AppConfig) : AppConfig :=
  { c with
    stopSignalName := sigName
    stopSignal := some sigName
    maxRetries := if c.maxRetries = 0 then defaultMaxRetries else c.maxRetries
    internalHost := if c.internalHost = "" then defaultHost else c.internalHost
    externalHost := if c.externalHost = "" then defaultHost else c.externalHost
    externalPort := if c.externalPort = 0 then defaultExternalPort else c.externalPort
    stdoutLogFile := if c.stdoutLogFile = "" then g.childLogDir ++ "/app_" ++ c.name ++ ".out" else c.stdoutLogFile
    stderrLogFile := if c.stderrLogFile = "" then g.childLogDir ++ "/app_" ++ c.name ++ ".err" else c.stderrLogFile
    user := if c.user = none then g.guser else c.user }

/-- `AppConfig.clean` (config.go lines 105-165).  `lu u` models
`user.Lookup(u)` succeeding; the two `os.MkdirAll` calls are filesystem
effects modelled as succeeding. -/
def appClean (g : GCtx) (lu : String → Bool) (c : AppConfig) : Except ConfigErr AppConfig :=
  if c.name = "" then .error .nameRequired
  else if c.command = "" then .error .commandRequired
  else if ¬ hasPortBadge c then .error .portBadgeRequired
  else
    let sigName := if c.stopSignalName = "" then defaultStopSignal else c.stopSignalName
    if sigName ∈ signalNames then
      let c1 := appDefaults g sigName c
      match c1.user with
      | some u => if u = "" ∨ lu u then .ok c1 else .error .userLookupFailed
      | none => .ok c1
    else .error .invalidStopSignal

/-- `InternalPortsConfig.clean` (config.go lines 70-81). -/
def portRangeClean (c : PortRangeCfg) : Except ConfigErr PortRangeCfg :=
  let c1 := if c.fromPort = 0 ∧ c.toPort = 0 then ⟨defaultPortFrom, defaultPortTo⟩ else c
  if c1.fromPort ≥ c1.toPort then .error .invalidPortRange else .ok c1

/-- `RpcConfig.clean` (config.go lines 180-190); it cannot fail. -/
def rpcClean (c : RpcCfg) : RpcCfg :=
  ⟨if c.host = "" then defaultHost else c.host,
    if c.port = 0 then defaultRpcPort else c.port⟩

/-- `LoggerConfig.clean` (config.go lines 200-216); `os.MkdirAll` is a
filesystem effect modelled as succeeding, so it cannot fail. -/
def loggerClean (c : LoggerCfg) : LoggerCfg :=
  { c with
    childLogDir := if c.childLogDir = "" then "/var/log/gracevisor" else c.childLogDir
    logFile := if c.logFile = "" then "/var/log/gracevisor/gracevisor.log" else c.logFile
    maxLogSize := if c.maxLogSize ≤ 0 then defaultMaxLogSize else c.maxLogSize }

/-- `UserConfig.clean` (config.go lines 50-63) as a success predicate: an
empty username skips the lookup. -/
def userOkB (lu : String → Bool) : Option String → Bool
  | none => true
  | some u => u == "" || lu u

/-- The `GCtx` an app is cleaned under: the defaulted child-log directory
and the global user (config.go passes the whole `Config` as `g`). -/
def appCtx (c : Config) : GCtx :=
  ⟨(loggerClean (c.logger.getD ⟨"", "", 0, 0, 0⟩)).childLogDir, c.user⟩

/-- The per-app loop of `Config.clean` (config.go lines 255-265): clean
each app in order, fail on its error, then fail with
`ErrDuplicateExternalPort` when its (defaulted) external port was already
used, else record the port and continue. -/
def cleanApps (g : GCtx) (lu : String → Bool) (used : List Nat) :
    List AppConfig → Except ConfigErr (List AppConfig)
  | [] => .ok []
  | a :: rest =>
    match appClean g lu a with
    | .error e => .error e
    | .ok a1 =>
      if a1.externalPort ∈ used then .error .duplicateExternalPort
      else (cleanApps g lu (a1.externalPort :: used) rest).map (a1 :: ·)

/-- `Config.clean` (config.go lines 226-267): default the nil sections,
clean port range, rpc, logger and the global user in order, then run the
per-app loop with an empty used-port set. -/
def configClean (lu : String → Bool) (c : Config) : Except ConfigErr Config :=
  let pr := c.portRange.getD ⟨0, 0⟩
  let rp := rpcClean (c.rpc.getD ⟨"", 0⟩)
  let lg := loggerClean (c.logger.getD ⟨"", "", 0, 0, 0⟩)
  match portRangeClean pr with
  | .error e => .error e
  | .ok pr1 =>
    if userOkB lu c.user then
      match cleanApps (appCtx c) lu [] c.apps with
      | .error e => .error e
      | .ok apps1 => .ok ⟨some pr1, apps1, some rp, some lg, c.user⟩
    else .error .userLookupFailed

/-- The external port an `AppConfig` ends up with after the defaulting in
`AppConfig.clean`: 0 becomes `defaultExternalPort`. -/
def postDefaultPort (a : AppConfig) : Nat :=
  if a.externalPort = 0 then defaultExternalPort else a.externalPort

/-- Whether an `Except` is a success. -/
def isOkE {ε α : Type} : Except ε α → Bool
  | .ok _ => true
  | .error _ => false

instance {ε α : Type} [DecidableEq ε] [DecidableEq α] : DecidableEq (Except ε α) := fun a b =>
  match a, b with
  | .ok x, .ok y =>
    if h : x = y then .isTrue (by rw [h]) else .isFalse (fun hh => h (by injection hh))
  | .error e, .error f =>
    if h : e = f then .isTrue (by rw [h]) else .isFalse (fun hh => h (by injection hh))
  | .ok _, .error _ => .isFalse (fun hh => Except.noConfusion hh)
  | .error _, .ok _ => .isFalse (fun hh => Except.noConfusion hh)


lemma stepInstance_len (upd : Nat → Nat) (s : AppState) (inst : Inst) :
    (stepInstance upd s inst).1.instances.length = s.instances.length := by
  simp only [stepInstance]
  split
  · split <;> simp [writeStatus]
  · split
    · split <;> simp [writeStatus, stopMark]
    · simp [writeStatus]

lemma stepInstance_nextId (upd : Nat → Nat) (s : AppState) (inst : Inst) :
    (stepInstance upd s inst).1.nextId = s.nextId := by
  simp only [stepInstance]
  split
  · split <;> simp [writeStatus]
  · split
    · split <;> simp [writeStatus, stopMark]
    · simp [writeStatus]

lemma stepInstance_no_attempt (upd : Nat → Nat) (s : AppState) (inst : Inst) :
    (stepInstance upd s inst).2.2.countP isAttemptEv = 0 := by
  simp only [stepInstance]
  split
  · split <;> simp [isAttemptEv]
  · split
    · split <;> simp [isAttemptEv]
    · simp [isAttemptEv]

lemma stepInstance_count_of_no_promote (upd : Nat → Nat) (s : AppState) (inst : Inst)
    (h : (stepInstance upd s inst).2.2.countP isPromotedEv = 0) :
    (stepInstance upd s inst).1.restartCount = s.restartCount := by
  revert h
  simp only [stepInstance]
  split
  · split <;> (intro _; simp [writeStatus])
  · split
    · split <;> (intro h; simp [isPromotedEv] at h)
    · intro _; simp [writeStatus]

lemma scan_foldl_len (upd : Nat → Nat) :
    ∀ (l : List Inst) (acc : AppState × List TickEv × Int),
      (l.foldl (scanStep upd) acc).1.instances.length = acc.1.instances.length := by
  intro l
  induction l with
  | nil => intro acc; rfl
  | cons x xs ih =>
    intro acc
    rw [List.foldl_cons]
    rw [ih]
    exact stepInstance_len upd acc.1 x

lemma scan_len (upd : Nat → Nat) (s : AppState) :
    (scan upd s).1.instances.length = s.instances.length := scan_foldl_len upd s.instances _

lemma scan_foldl_nextId (upd : Nat → Nat) :
    ∀ (l : List Inst) (acc : AppState × List TickEv × Int),
      (l.foldl (scanStep upd) acc).1.nextId = acc.1.nextId := by
  intro l
  induction l with
  | nil => intro acc; rfl
  | cons x xs ih =>
    intro acc
    rw [List.foldl_cons]
    rw [ih]
    exact stepInstance_nextId upd acc.1 x

lemma scan_foldl_last (upd : Nat → Nat) :
    ∀ (l : List Inst) (acc : AppState × List TickEv × Int),
      (l.foldl (scanStep upd) acc).2.2 =
        (l.getLast?.map fun i => ((upd i.id : Nat) : Int)).getD acc.2.2 := by
  intro l
  induction l with
  | nil => intro acc; rfl
  | cons x xs ih =>
    intro acc
    rw [List.foldl_cons, ih]
    cases hxs : xs with
    | nil => simp [scanStep]
    | cons y ys =>
      rw [List.getLast?_cons_cons]
      obtain ⟨z, hz⟩ : ∃ z, (y :: ys).getLast? = some z :=
        ⟨(y :: ys).getLast (by simp), List.getLast?_eq_getLast _ _⟩
      simp [hz]

/-- On a non-empty instance list, the scan's `lastStatus` is the status
returned for the final element of the list — no earlier instance
influences it. -/
lemma scan_last (upd : Nat → Nat) (s : AppState) (lastI : Inst)
    (h : s.instances.getLast? = some lastI) :
    (scan upd s).2.2 = ((upd lastI.id : Nat) : Int) := by
  unfold scan
  rw [scan_foldl_last, h]
  rfl

/-- Tick of the C1 counterexample: instance 1 (non-last, non-active) fails
while the last, active instance 2 keeps serving. -/
def cUpd : Nat → Nat := fun n => if n = 1 then instanceStatusFailed else instanceStatusServing

/-- State of the C1 counterexample: two instances, the second active. -/
def cs : AppState :=
  ⟨[⟨1, instanceStatusStarting, 0⟩, ⟨2, instanceStatusServing, 0⟩], some 2, 0, 2⟩

/-- C1 counterexample.  In state `cs` instance 1's `UpdateStatus` returns
`Failed` and the restart counter 0 is below `MaxRetries = 5`, yet the tick
increments nothing and starts no new Instance — because instance 1 is not
the last element of the instance list, its terminal status never reaches
the restart decision.  This falsifies the claim that the restart rule
applies to every terminating instance regardless of its position. -/
theorem restart_skips_nonlast_failure :
    cUpd 1 = instanceStatusFailed ∧
    cs.restartCount = 0 ∧ (0 : Int) < 5 ∧
    (tick 5 true cUpd cs).1.restartCount = 0 ∧
    (tick 5 true cUpd cs).1.instances.length = cs.instances.length := by decide

/-- C1 as amended: the restart decision of a tick observes only the status
returned for the *last* instance in the list (`lastStatus`).  If that
status is `Exited`, `Failed` or `TimedOut` and the counter (as left by this
tick's promotions) is below `MaxRetries`, the counter is incremented and —
when `NewInstance` succeeds — exactly one new Instance with the next id is
appended in `Starting` state; if the counter has reached `MaxRetries`, or
the last instance's status is not terminal, the tick starts nothing,
whatever statuses the other instances returned. -/
theorem tick_restart_last_only (maxRetries : Int) (upd : Nat → Nat) (s : AppState)
    (lastI : Inst) (hl : s.instances.getLast? = some lastI) :
    (restartTrigger ((upd lastI.id : Nat) : Int) →
       ((scan upd s).1.restartCount < maxRetries →
          (tick maxRetries true upd s).1.instances =
            (scan upd s).1.instances ++ [⟨(scan upd s).1.nextId + 1, instanceStatusStarting, 0⟩] ∧
          (tick maxRetries true upd s).1.restartCount = (scan upd s).1.restartCount + 1 ∧
          (tick maxRetries true upd s).1.instances.length = s.instances.length + 1) ∧
       (maxRetries ≤ (scan upd s).1.restartCount →
          (tick maxRetries true upd s).1 = (scan upd s).1 ∧
          (tick maxRetries true upd s).1.instances.length = s.instances.length)) ∧
    (¬ restartTrigger ((upd lastI.id : Nat) : Int) →
       (tick maxRetries true upd s).1 = (scan upd s).1 ∧
       (tick maxRetries true upd s).1.instances.length = s.instances.length) := by
  have hls := scan_last upd s lastI hl
  simp only [tick, hls]
  refine ⟨fun htrig => ⟨fun hlt => ?_, fun hge => ?_⟩, fun hntrig => ?_⟩
  · simp only [restartPhase, if_pos htrig, if_pos hlt, if_pos rfl]
    refine ⟨rfl, rfl, ?_⟩
    simp [scan_len]
  · rw [restartPhase, if_pos htrig, if_neg (not_lt.mpr hge)]
    exact ⟨rfl, scan_len upd s⟩
  · rw [restartPhase, if_neg hntrig]
    exact ⟨rfl, scan_len upd s⟩

/-- Tick of the C1 witness: the only (hence last) instance fails. -/
def wUpd : Nat → Nat := fun _ => instanceStatusFailed

/-- State of the C1 witness: a single `Starting` instance, no active one. -/
def ws : AppState := ⟨[⟨1, instanceStatusStarting, 0⟩], none, 0, 1⟩

/-- Witness for `tick_restart_last_only` at a concrete input: the sole
instance fails, so the tick starts exactly one replacement and increments
the counter. -/
theorem tick_restart_last_only_witness :
    (tick 5 true wUpd ws).1.instances.length = 2 ∧
    (tick 5 true wUpd ws).1.restartCount = 1 := by
  have h := ((tick_restart_last_only 5 wUpd ws ⟨1, instanceStatusStarting, 0⟩ (by decide)).1
    (by decide)).1 (by decide)
  exact ⟨h.2.2.trans (by decide), h.2.1.trans (by decide)⟩

/-- C2: when the tick's loop body handles an instance that is not the
current `activeInstance` and whose `UpdateStatus` returned `Serving`, the
swap of `activeInstance` happens under the lock, `Stop()` on the displaced
instance is called only after the swap (and after the lock is released) —
the event list is exactly `updated, reset, lock, promoted, unlock,
stopCalled` in that order — and none of the intermediate states of the
promotion has a nil `activeInstance`, so a successful rollover never
exposes an empty active pointer.  The branch also resets the restart
counter. -/
theorem promotion_swaps_before_stop (upd : Nat → Nat) (s : AppState) (inst : Inst)
    (hact : s.active ≠ some inst.id) (hs : upd inst.id = instanceStatusServing) :
    (stepInstance upd s inst).1.active = some inst.id ∧
    (stepInstance upd s inst).1.restartCount = 0 ∧
    (∀ p, s.active = some p →
      (stepInstance upd s inst).2.2 =
        [.updated inst.id instanceStatusServing, .reset, .lockT,
          .promoted inst.id (some p), .unlockT, .stopCalled p] ∧
      (∀ st ∈ (stepInstance upd s inst).2.1, st.active ≠ none)) ∧
    (s.active = none →
      (stepInstance upd s inst).2.2 =
        [.updated inst.id instanceStatusServing, .reset, .lockT,
          .promoted inst.id none, .unlockT]) := by
  have hw : (writeStatus s inst.id (upd inst.id)).active = s.active := by
    simp [writeStatus]
  have hwne : ¬ (writeStatus s inst.id (upd inst.id)).active = some inst.id := by
    rw [hw]
    exact hact
  cases hsa : s.active with
  | some p =>
    have hne : p ≠ inst.id := fun hh => hact (by rw [hsa, hh])
    have hw2 : (writeStatus s inst.id instanceStatusServing).active = some p := by
      rw [← hs, hw, hsa]
    simp only [stepInstance, if_neg hwne, hs, if_pos rfl]
    simp [hw2, stopMark, writeStatus, hsa, hne]
  | none =>
    have hw2 : (writeStatus s inst.id instanceStatusServing).active = none := by
      rw [← hs, hw, hsa]
    simp only [stepInstance, if_neg hwne, hs, if_pos rfl]
    simp [hw2, writeStatus, hsa]

/-- Witness for `promotion_swaps_before_stop`: instance 2 turns `Serving`
while instance 1 is active; the active pointer moves to 2 and the counter
(here 3) resets to 0. -/
theorem promotion_swaps_before_stop_witness :
    (stepInstance (fun _ => instanceStatusServing)
        ⟨[⟨1, instanceStatusServing, 0⟩, ⟨2, instanceStatusStarting, 0⟩], some 1, 3, 2⟩
        ⟨2, instanceStatusStarting, 0⟩).1.active = some 2 ∧
    (stepInstance (fun _ => instanceStatusServing)
        ⟨[⟨1, instanceStatusServing, 0⟩, ⟨2, instanceStatusStarting, 0⟩], some 1, 3, 2⟩
        ⟨2, instanceStatusStarting, 0⟩).1.restartCount = 0 := by
  have h := promotion_swaps_before_stop (fun _ => instanceStatusServing)
    ⟨[⟨1, instanceStatusServing, 0⟩, ⟨2, instanceStatusStarting, 0⟩], some 1, 3, 2⟩
    ⟨2, instanceStatusStarting, 0⟩ (by decide) rfl
  exact ⟨h.1, h.2.1⟩

lemma scan_foldl_evcount_ge (upd : Nat → Nat) (q : TickEv → Bool) :
    ∀ (l : List Inst) (acc : AppState × List TickEv × Int),
      acc.2.1.countP q ≤ (l.foldl (scanStep upd) acc).2.1.countP q := by
  intro l
  induction l with
  | nil => intro acc; exact le_refl _
  | cons x xs ih =>
    intro acc
    rw [List.foldl_cons]
    refine le_trans ?_ (ih _)
    simp [scanStep, List.countP_append]

lemma scan_foldl_noPromote_count (upd : Nat → Nat) :
    ∀ (l : List Inst) (acc : AppState × List TickEv × Int),
      (l.foldl (scanStep upd) acc).2.1.countP isPromotedEv = acc.2.1.countP isPromotedEv →
      (l.foldl (scanStep upd) acc).1.restartCount = acc.1.restartCount := by
  intro l
  induction l with
  | nil => intro acc _; rfl
  | cons x xs ih =>
    intro acc h
    rw [List.foldl_cons] at h ⊢
    have hge := scan_foldl_evcount_ge upd isPromotedEv xs (scanStep upd acc x)
    have hstepev : (scanStep upd acc x).2.1.countP isPromotedEv =
        acc.2.1.countP isPromotedEv + (stepInstance upd acc.1 x).2.2.countP isPromotedEv := by
      simp [scanStep, List.countP_append]
    have hz : (stepInstance upd acc.1 x).2.2.countP isPromotedEv = 0 := by omega
    have h2 : (xs.foldl (scanStep upd) (scanStep upd acc x)).2.1.countP isPromotedEv =
        (scanStep upd acc x).2.1.countP isPromotedEv := by omega
    rw [ih _ h2]
    exact stepInstance_count_of_no_promote upd acc.1 x hz

lemma scan_noPromote_count (upd : Nat → Nat) (s : AppState)
    (h : (scan upd s).2.1.countP isPromotedEv = 0) :
    (scan upd s).1.restartCount = s.restartCount :=
  scan_foldl_noPromote_count upd s.instances (s, ([], -1)) (by simpa using h)

lemma scan_foldl_attempts (upd : Nat → Nat) :
    ∀ (l : List Inst) (acc : AppState × List TickEv × Int),
      (l.foldl (scanStep upd) acc).2.1.countP isAttemptEv = acc.2.1.countP isAttemptEv := by
  intro l
  induction l with
  | nil => intro acc; rfl
  | cons x xs ih =>
    intro acc
    rw [List.foldl_cons, ih]
    simp [scanStep, List.countP_append, stepInstance_no_attempt]

lemma scan_attempts (upd : Nat → Nat) (s : AppState) :
    (scan upd s).2.1.countP isAttemptEv = 0 := by
  simpa using scan_foldl_attempts upd s.instances (s, ([], -1))

lemma tick_count (m : Int) (ok : Bool) (upd : Nat → Nat) (s : AppState)
    (h : (tick m ok upd s).2.countP isPromotedEv = 0) :
    (tick m ok upd s).1.restartCount = s.restartCount + (countAttempts (tick m ok upd s).2 : Int) ∧
    countAttempts (tick m ok upd s).2 ≤ 1 ∧
    (1 ≤ countAttempts (tick m ok upd s).2 → s.restartCount < m) := by
  have hscanA : (scan upd s).2.1.countP isAttemptEv = 0 := scan_attempts upd s
  have hsplit : (tick m ok upd s).2 =
      (scan upd s).2.1 ++ (restartPhase m ok (scan upd s).2.2 (scan upd s).1).2 := rfl
  have hps : (scan upd s).2.1.countP isPromotedEv = 0 := by
    rw [hsplit, List.countP_append] at h
    omega
  have hcount : (scan upd s).1.restartCount = s.restartCount := scan_noPromote_count upd s hps
  have hstate : (tick m ok upd s).1 = (restartPhase m ok (scan upd s).2.2 (scan upd s).1).1 := rfl
  rw [hstate, hsplit]
  unfold countAttempts
  rw [List.countP_append, hscanA]
  simp only [Nat.zero_add]
  unfold restartPhase
  split
  · split
    · cases ok
      · simp only [Bool.false_eq_true, if_neg (by simp : ¬ (false = true))]
        simp [isAttemptEv, hcount]
        omega
      · simp only [if_pos rfl]
        simp [isAttemptEv, hcount]
        omega
    · simp [hcount]
  · simp [hcount]

lemma runTicks_shift (m : Int) :
    ∀ (ts : List ((Nat → Nat) × Bool)) (p : AppState × List TickEv),
      ts.foldl (runStep m) p =
        ((ts.foldl (runStep m) (p.1, [])).1, p.2 ++ (ts.foldl (runStep m) (p.1, [])).2) := by
  intro ts
  induction ts with
  | nil => intro p; simp
  | cons t ts ih =>
    intro p
    rw [List.foldl_cons, List.foldl_cons, ih (runStep m p t), ih (runStep m (p.1, []) t)]
    simp [runStep]

lemma runTicks_cons (m : Int) (t : (Nat → Nat) × Bool) (ts : List ((Nat → Nat) × Bool))
    (s : AppState) :
    runTicks m (t :: ts) s =
      ((runTicks m ts (tick m t.2 t.1 s).1).1,
        (tick m t.2 t.1 s).2 ++ (runTicks m ts (tick m t.2 t.1 s).1).2) := by
  show ts.foldl (runStep m) (runStep m (s, []) t) = _
  rw [runTicks_shift]
  simp [runStep, runTicks]

lemma runTicks_noPromote (m : Int) :
    ∀ (ts : List ((Nat → Nat) × Bool)) (s : AppState),
      (runTicks m ts s).2.countP isPromotedEv = 0 →
      (runTicks m ts s).1.restartCount =
        s.restartCount + (countAttempts (runTicks m ts s).2 : Int) ∧
      (runTicks m ts s).1.restartCount ≤ max m s.restartCount := by
  intro ts
  induction ts with
  | nil =>
    intro s h
    simp [runTicks, countAttempts, le_max_right]
  | cons t ts ih =>
    intro s h
    rw [runTicks_cons] at h ⊢
    rw [List.countP_append] at h
    have h1 : (tick m t.2 t.1 s).2.countP isPromotedEv = 0 := by omega
    have h2 : (runTicks m ts (tick m t.2 t.1 s).1).2.countP isPromotedEv = 0 := by omega
    have ht := tick_count m t.2 t.1 s h1
    have hr := ih (tick m t.2 t.1 s).1 h2
    unfold countAttempts at ht hr ⊢
    rw [List.countP_append]
    constructor
    · rw [hr.1, ht.1]
      push_cast
      ring
    · have htc : (tick m t.2 t.1 s).1.restartCount ≤ max m s.restartCount := by
        rcases Nat.eq_zero_or_pos ((tick m t.2 t.1 s).2.countP isAttemptEv) with h0 | h1'
        · rw [ht.1, h0]
          simp [le_max_right]
        · have hlt := ht.2.2 h1'
          have : (tick m t.2 t.1 s).1.restartCount ≤ m := by
            rw [ht.1]
            have : ((tick m t.2 t.1 s).2.countP isAttemptEv : Int) ≤ 1 := by
              exact_mod_cast ht.2.1
            omega
          exact le_trans this (le_max_left _ _)
      exact le_trans hr.2 (max_le (le_max_left _ _) htc)

/-- C3: the restart counter is reset only by a promotion (a `promoted`
event); over any run of ticks that begins just after a promotion
(`restartCount = 0`) and contains no further promotion, the counter equals
the number of restart attempts made so far, and at most `MaxRetries`
replacement instances are started (none when `MaxRetries ≤ 0`). -/
theorem restart_budget_between_promotions (m : Int) (ts : List ((Nat → Nat) × Bool))
    (s : AppState) (h0 : s.restartCount = 0)
    (hnp : (runTicks m ts s).2.countP isPromotedEv = 0) :
    (runTicks m ts s).1.restartCount = (countAttempts (runTicks m ts s).2 : Int) ∧
    (countAttempts (runTicks m ts s).2 : Int) ≤ max m 0 := by
  have h := runTicks_noPromote m ts s hnp
  rw [h0] at h
  constructor
  · rw [h.1]
    ring
  · have := h.2
    rw [h.1] at this
    simpa using this

/-- Ticks of the C3 witness: every instance always reports `Failed`, and
`NewInstance` always succeeds. -/
def wTicks : List ((Nat → Nat) × Bool) :=
  [(fun _ => instanceStatusFailed, true), (fun _ => instanceStatusFailed, true),
    (fun _ => instanceStatusFailed, true)]

/-- Witness for `restart_budget_between_promotions`: with `MaxRetries = 2`
and three all-failing ticks, exactly two replacements are attempted and the
run stays within the budget. -/
theorem restart_budget_between_promotions_witness :
    countAttempts (runTicks 2 wTicks ws).2 = 2 ∧
    ((countAttempts (runTicks 2 wTicks ws).2 : Int) ≤ max 2 0) := by
  refine ⟨by decide, ?_⟩
  exact (restart_budget_between_promotions 2 wTicks ws (by decide) (by decide)).2

/-- Recogniser for `Serve()` events. -/
def isServeEv : ReqEv → Bool
  | .serveCalled _ => true
  | _ => false

/-- Recogniser for `Done()` events. -/
def isDoneEv : ReqEv → Bool
  | .doneCalled _ => true
  | _ => false

/-- C4: the complete event trace of `ServeHTTP`.  When `reserveInstance`
succeeds on instance `i`, `Serve()` is called exactly once on `i`, strictly
between taking and releasing the active-instance lock, and `Done()` is
called exactly once on the same `i` after proxying, whether the proxy
succeeded or failed; when `reserveInstance` fails (no active instance),
the handler answers 503 and `Done()` is never called. -/
theorem request_done_exactly_once (s : AppState) (ok : Bool) :
    (serveHTTP s ok).2 =
      (match s.active with
        | none => [.lockA, .unlockA, .resp503]
        | some i => [.lockA, .serveCalled i, .unlockA, .proxied i ok, .doneCalled i]) ∧
    (serveHTTP s ok).2.countP isDoneEv =
      (match s.active with | none => 0 | some _ => 1) ∧
    (serveHTTP s ok).2.countP isServeEv =
      (match s.active with | none => 0 | some _ => 1) := by
  cases hs : s.active with
  | none =>
    refine ⟨?_, ?_, ?_⟩ <;> simp [serveHTTP, reserveInstance, hs, isDoneEv, isServeEv]
  | some i =>
    refine ⟨?_, ?_, ?_⟩ <;> simp [serveHTTP, reserveInstance, hs, isDoneEv, isServeEv]

lemma statusKey_lt4 (i : Inst) : statusKey i < 4 := by
  unfold statusKey
  split <;> omega

lemma goLess_iff (a b : Inst) : goLess a b = true ↔ statusKey a < statusKey b := by
  unfold goLess statusKey instanceStatusStopping
  by_cases ha : a.status ≤ 2 <;> by_cases hb : b.status ≤ 2 <;>
    simp [ha, hb] <;> omega

lemma goLess_false_iff (a b : Inst) : goLess a b = false ↔ ¬ statusKey a < statusKey b := by
  rw [← goLess_iff]
  cases h : goLess a b <;> simp

lemma stableInsert_skip (x : Inst) (A B : List Inst)
    (h : ∀ y ∈ A, goLess x y = false) :
    stableInsert goLess x (A ++ B) = A ++ stableInsert goLess x B := by
  induction A with
  | nil => simp
  | cons a as ih =>
    rw [List.cons_append, stableInsert, if_neg (by rw [h a (by simp)]; simp),
      ih fun y hy => h y (by simp [hy]), List.cons_append]

lemma stableInsert_front (x : Inst) (B : List Inst)
    (h : ∀ y ∈ B, goLess x y = true) :
    stableInsert goLess x B = x :: B := by
  cases B with
  | nil => rfl
  | cons b bs => rw [stableInsert, if_pos (by rw [h b (by simp)])]

lemma keyFilter_mem {k : Nat} {l : List Inst} {y : Inst} (hy : y ∈ keyFilter k l) :
    statusKey y = k := by
  have := List.of_mem_filter hy
  simpa using this

lemma keyFilter_append (k : Nat) (l₁ l₂ : List Inst) :
    keyFilter k (l₁ ++ l₂) = keyFilter k l₁ ++ keyFilter k l₂ := by
  simp [keyFilter, List.filter_append]

lemma keyFilter_single (k : Nat) (x : Inst) :
    keyFilter k [x] = if statusKey x = k then [x] else [] := by
  simp [keyFilter, List.filter_singleton]

lemma stableInsert_grp (x : Inst) (l : List Inst) :
    stableInsert goLess x
        (keyFilter 0 l ++ keyFilter 1 l ++ keyFilter 2 l ++ keyFilter 3 l) =
      keyFilter 0 (l ++ [x]) ++ keyFilter 1 (l ++ [x]) ++
        keyFilter 2 (l ++ [x]) ++ keyFilter 3 (l ++ [x]) := by
  have hmemle : ∀ (ks : List Nat) (y : Inst) (c : Nat),
      (∀ k ∈ ks, k ≤ c) → y ∈ (ks.map fun k => keyFilter k l).foldr (· ++ ·) [] →
      statusKey y ≤ c := by
    intro ks
    induction ks with
    | nil => intro y c _ hy; simp at hy
    | cons k ks ih =>
      intro y c hks hy
      simp only [List.map_cons, List.foldr_cons, List.mem_append] at hy
      rcases hy with hy | hy
      · rw [keyFilter_mem hy]
        exact hks k (by simp)
      · exact ih y c (fun j hj => hks j (by simp [hj])) hy
  have hk := statusKey_lt4 x
  rw [keyFilter_append 0, keyFilter_append 1, keyFilter_append 2, keyFilter_append 3]
  rw [keyFilter_single, keyFilter_single, keyFilter_single, keyFilter_single]
  interval_cases hkx : statusKey x
  · rw [show keyFilter 0 l ++ keyFilter 1 l ++ keyFilter 2 l ++ keyFilter 3 l =
        keyFilter 0 l ++ (keyFilter 1 l ++ keyFilter 2 l ++ keyFilter 3 l) by
      simp [List.append_assoc]]
    rw [stableInsert_skip x _ _ ?hA, stableInsert_front x _ ?hB]
    · simp [List.append_assoc]
    case hA =>
      intro y hy
      rw [goLess_false_iff, hkx]
      rw [keyFilter_mem hy]
      omega
    case hB =>
      intro y hy
      rw [goLess_iff, hkx]
      simp only [List.append_assoc, List.mem_append] at hy
      rcases hy with hy | hy | hy <;> rw [keyFilter_mem hy] <;> omega
  · rw [show keyFilter 0 l ++ keyFilter 1 l ++ keyFilter 2 l ++ keyFilter 3 l =
        (keyFilter 0 l ++ keyFilter 1 l) ++ (keyFilter 2 l ++ keyFilter 3 l) by
      simp [List.append_assoc]]
    rw [stableInsert_skip x _ _ ?hA1, stableInsert_front x _ ?hB1]
    · simp [List.append_assoc]
    case hA1 =>
      intro y hy
      rw [goLess_false_iff, hkx]
      rcases List.mem_append.mp hy with hy | hy <;> rw [keyFilter_mem hy] <;> omega
    case hB1 =>
      intro y hy
      rw [goLess_iff, hkx]
      rcases List.mem_append.mp hy with hy | hy <;> rw [keyFilter_mem hy] <;> omega
  · rw [show keyFilter 0 l ++ keyFilter 1 l ++ keyFilter 2 l ++ keyFilter 3 l =
        (keyFilter 0 l ++ keyFilter 1 l ++ keyFilter 2 l) ++ keyFilter 3 l by
      simp [List.append_assoc]]
    rw [stableInsert_skip x _ _ ?hA2, stableInsert_front x _ ?hB2]
    · simp [List.append_assoc]
    case hA2 =>
      intro y hy
      rw [goLess_false_iff, hkx]
      simp only [List.append_assoc, List.mem_append] at hy
      rcases hy with hy | hy | hy <;> rw [keyFilter_mem hy] <;> omega
    case hB2 =>
      intro y hy
      rw [goLess_iff, hkx]
      rw [keyFilter_mem hy]
      omega
  · rw [show keyFilter 0 l ++ keyFilter 1 l ++ keyFilter 2 l ++ keyFilter 3 l =
        (keyFilter 0 l ++ keyFilter 1 l ++ keyFilter 2 l ++ keyFilter 3 l) ++ [] by
      simp]
    rw [stableInsert_skip x _ _ ?hA3]
    · simp [List.append_assoc, stableInsert]
    case hA3 =>
      intro y hy
      rw [goLess_false_iff, hkx]
      simp only [List.append_assoc, List.mem_append] at hy
      rcases hy with hy | hy | hy | hy <;> rw [keyFilter_mem hy] <;> omega

lemma stableSort_foldl_grp :
    ∀ (rest P : List Inst),
      rest.foldl (fun acc x => stableInsert goLess x acc)
          (keyFilter 0 P ++ keyFilter 1 P ++ keyFilter 2 P ++ keyFilter 3 P) =
        keyFilter 0 (P ++ rest) ++ keyFilter 1 (P ++ rest) ++
          keyFilter 2 (P ++ rest) ++ keyFilter 3 (P ++ rest) := by
  intro rest
  induction rest with
  | nil => intro P; simp
  | cons x xs ih =>
    intro P
    rw [List.foldl_cons, stableInsert_grp, ih (P ++ [x])]
    simp [List.append_assoc]

/-- `sort.Stable` with `InstanceStatusSort.Less` groups the list by the
sort key: terminal instances first (key 0), then `Stopping`, `Starting`,
`Serving`, each group keeping its original relative order. -/
lemma stableSort_grp (l : List Inst) :
    stableSort goLess l =
      keyFilter 0 l ++ keyFilter 1 l ++ keyFilter 2 l ++ keyFilter 3 l := by
  have h := stableSort_foldl_grp l []
  simpa [stableSort, keyFilter] using h

lemma stableInsert_perm (lt : Inst → Inst → Bool) (x : Inst) (l : List Inst) :
    (stableInsert lt x l).Perm (x :: l) := by
  induction l with
  | nil => exact List.Perm.refl _
  | cons y ys ih =>
    rw [stableInsert]
    split
    · exact List.Perm.refl _
    · exact (ih.cons y).trans (List.Perm.swap x y ys)

lemma stableSort_foldl_perm (lt : Inst → Inst → Bool) :
    ∀ (rest acc : List Inst),
      (rest.foldl (fun acc x => stableInsert lt x acc) acc).Perm (acc ++ rest) := by
  intro rest
  induction rest with
  | nil => intro acc; simp
  | cons x xs ih =>
    intro acc
    rw [List.foldl_cons]
    refine (ih _).trans ?_
    refine (List.Perm.append_right xs (stableInsert_perm lt x acc)).trans ?_
    exact List.perm_middle.symm

/-- `sort.Stable` permutes the slice: no instance is created or lost. -/
lemma stableSort_perm (lt : Inst → Inst → Bool) (l : List Inst) :
    (stableSort lt l).Perm l := by
  simpa [stableSort] using stableSort_foldl_perm lt l []

/-- The spec's Status-Reporter example: statuses
`[Exited, Serving, Failed, Starting, Exited]` in creation order. -/
def exInsts : List Inst :=
  [⟨1, instanceStatusExited, 0⟩, ⟨2, instanceStatusServing, 0⟩,
    ⟨3, instanceStatusFailed, 0⟩, ⟨4, instanceStatusStarting, 0⟩,
    ⟨5, instanceStatusExited, 0⟩]

/-- C6 counterexample.  On the spec's own example the sort places the
terminal instances *first* (and `Starting` before `Serving`), not the
non-terminal ones: the output status order is
`[Exited, Failed, Exited, Starting, Serving]`, which differs from the
claimed `[Serving, Starting, Exited, Failed, Exited]`. -/
theorem report_order_counterexample :
    (stableSort goLess exInsts).map Inst.status =
      [instanceStatusExited, instanceStatusFailed, instanceStatusExited,
        instanceStatusStarting, instanceStatusServing] ∧
    (stableSort goLess exInsts).map Inst.status ≠
      [instanceStatusServing, instanceStatusStarting, instanceStatusExited,
        instanceStatusFailed, instanceStatusExited] := by decide

/-- C6 as amended: the stable sort groups instances by the key induced by
`InstanceStatusSort.Less` — all terminal instances first in their original
relative order, then the `Stopping`, `Starting` and `Serving` groups in
that order, each in original relative order (so the non-terminal instances
land at the *back*, which is the tail `Report` displays); on the spec's
example the output statuses are
`[Exited, Failed, Exited, Starting, Serving]`. -/
theorem report_sort_groups (l : List Inst) :
    stableSort goLess l =
      keyFilter 0 l ++ keyFilter 1 l ++ keyFilter 2 l ++ keyFilter 3 l ∧
    (stableSort goLess exInsts).map Inst.status =
      [instanceStatusExited, instanceStatusFailed, instanceStatusExited,
        instanceStatusStarting, instanceStatusServing] :=
  ⟨stableSort_grp l, by decide⟩

/-- State of the C7/C8 counterexamples: instance 1 is `Serving` (and
active), instance 2 has `Exited`. -/
def s7 : AppState :=
  ⟨[⟨1, instanceStatusServing, 0⟩, ⟨2, instanceStatusExited, 0⟩], some 1, 0, 2⟩

/-- C7 counterexample.  `Report` sorts the App's instance slice in place:
after `Report(5)` on `s7` the stored order is `[2, 1]`, not the original
creation order `[1, 2]` — the call is not read-only. -/
theorem report_not_readonly :
    ((appReport "app" "localhost" 8080 s7 5).2.instances).map Inst.id = [2, 1] ∧
    s7.instances.map Inst.id = [1, 2] ∧
    ([2, 1] : List Nat) ≠ [1, 2] := by decide

/-- C7 as amended: `Report` replaces the App's instance slice by its
status-sorted reordering (`sort.Stable` works in place), so the sequence
after the call is a permutation of the one before — same instances, same
length, but not necessarily the original append-only creation order. -/
theorem report_permutes_history (nm hs : String) (pt : Nat) (s : AppState) (n : Nat) :
    (appReport nm hs pt s n).2.instances = stableSort goLess s.instances ∧
    ((appReport nm hs pt s n).2.instances).Perm s.instances ∧
    (appReport nm hs pt s n).2.instances.length = s.instances.length :=
  ⟨rfl, stableSort_perm goLess s.instances,
    ((stableSort_perm goLess s.instances).length_eq)⟩

/-- C8 counterexample.  With `displayN = 1` on `s7`, the single reported
instance is instance 1 (`Serving`) — not instance 2, the most recently
created one: the displayed window is the tail of the *sorted* slice, not
of the creation-ordered history. -/
theorem report_window_counterexample :
    ((appReport "app" "localhost" 8080 s7 1).1.instances).map Inst.id = [1] ∧
    (s7.instances.map Inst.id).getLast? = some 2 ∧
    ([1] : List Nat) ≠ [2] := by decide

/-- C8 as amended: `Report(displayN)` shows the last `displayN` entries of
the instance slice *after* the in-place status sort (terminal instances
first), so the window holds the non-terminal instances and only then the
most recent terminal ones — not, in general, the `displayN` most recently
created instances.  When the App has at most `displayN` instances, the
whole (sorted) history appears. -/
theorem report_window_is_sorted_tail (nm hs : String) (pt : Nat) (s : AppState) (n : Nat) :
    (appReport nm hs pt s n).1.instances =
      (stableSort goLess s.instances).drop (s.instances.length - n) ∧
    (s.instances.length ≤ n →
      (appReport nm hs pt s n).1.instances = stableSort goLess s.instances) := by
  constructor
  · show (stableSort goLess s.instances).drop
        (if s.instances.length > n then s.instances.length - n else 0) =
      (stableSort goLess s.instances).drop (s.instances.length - n)
    split
    · rfl
    · next h =>
      have h0 : s.instances.length - n = 0 := by omega
      rw [h0]
  · intro hle
    show (stableSort goLess s.instances).drop
        (if s.instances.length > n then s.instances.length - n else 0) =
      stableSort goLess s.instances
    rw [if_neg (by omega)]
    exact List.drop_zero _

/-- Witness for `report_window_is_sorted_tail`: with `displayN = 5` and two
instances, the whole sorted history is reported. -/
theorem report_window_is_sorted_tail_witness :
    (appReport "app" "localhost" 8080 s7 5).1.instances = stableSort goLess s7.instances :=
  (report_window_is_sorted_tail "app" "localhost" 8080 s7 5).2 (by decide)

/-- The C5 failing input: the port placeholder appears in the environment
but not in the command. -/
def envCfg : AppConfig :=
  ⟨"app", "run server", ["PORT=\x7bport\x7d"], "", none, "", 0, 0, 0, "", "", 0,
    "out", "err", none⟩

/-- C5 (code bug).  `envCfg`'s environment contains the port placeholder
while its command does not; the error string `errPortBadgeRequiredMsg`
("App must have ... in command or environment") and the spec both say such
a config is acceptable, yet `hasPortBadge` inspects only the command, so
`AppConfig.clean` rejects it with `ErrPortBadgeRequired`. -/
theorem portbadge_ignores_environment :
    envCfg.environment.any (fun e => goContains e "\x7bport\x7d") = true ∧
    goContains envCfg.command "\x7bport\x7d" = false ∧
    hasPortBadge envCfg = false ∧
    appClean ⟨"/var/log/gracevisor", none⟩ (fun _ => true) envCfg =
      .error .portBadgeRequired := by decide

lemma appClean_ok_fields (g : GCtx) (lu : String → Bool) (c : AppConfig) (out : AppConfig)
    (h : appClean g lu c = .ok out) :
    out.maxRetries = (if c.maxRetries = 0 then defaultMaxRetries else c.maxRetries) ∧
    out.externalPort = postDefaultPort c := by
  simp only [appClean] at h
  repeat' split at h
  all_goals try exact Except.noConfusion h
  all_goals rw [Except.ok.injEq] at h
  all_goals subst h
  all_goals exact ⟨by simp [appDefaults], by simp [appDefaults, postDefaultPort]⟩

/-- The C9 failing input: a negative `max_retries`. -/
def negCfg : AppConfig :=
  ⟨"a", "run \x7bport\x7d", [], "", none, "", -1, 0, 0, "", "", 0, "out", "err", none⟩

/-- C9 counterexample.  `AppConfig.clean` accepts `negCfg` and leaves its
`MaxRetries = -1` untouched (only the exact value 0 is replaced by the
default), so a validated config can carry `MaxRetries` below 1 — with such
a value the reconciliation loop never restarts anything. -/
theorem maxretries_negative_passes :
    (appClean ⟨"d", none⟩ (fun _ => true) negCfg).map AppConfig.maxRetries = .ok (-1) ∧
    ¬ (1 ≤ (-1 : Int)) := by decide

/-- C9 as amended: `AppConfig.clean` replaces a `MaxRetries` of exactly 0
(the value of an omitted `max_retries`) with the default 5 and leaves every
other value — including negative ones — unchanged; hence every validated
config has `MaxRetries ≠ 0`, but not necessarily `MaxRetries ≥ 1`. -/
theorem maxretries_defaulted_nonzero (g : GCtx) (lu : String → Bool) (c : AppConfig)
    (out : AppConfig) (h : appClean g lu c = .ok out) :
    out.maxRetries = (if c.maxRetries = 0 then defaultMaxRetries else c.maxRetries) ∧
    out.maxRetries ≠ 0 := by
  have hf := appClean_ok_fields g lu c out h
  refine ⟨hf.1, ?_⟩
  rw [hf.1]
  split
  · decide
  · next hne => exact hne

/-- Input of the C9 witness: `max_retries` omitted (0). -/
def wc9 : AppConfig :=
  ⟨"w", "run \x7bport\x7d", [], "", none, "", 0, 0, 0, "", "", 0, "out", "err", none⟩

/-- The cleaned form of `wc9`. -/
def wc9out : AppConfig :=
  ⟨"w", "run \x7bport\x7d", [], "", some "TERM", "TERM", 5, 0, 0, "localhost",
    "localhost", 8080, "out", "err", none⟩

/-- Witness for `maxretries_defaulted_nonzero`: an omitted `max_retries`
becomes the default 5. -/
theorem maxretries_defaulted_nonzero_witness :
    wc9out.maxRetries = (if wc9.maxRetries = 0 then defaultMaxRetries else wc9.maxRetries) ∧
    wc9out.maxRetries ≠ 0 :=
  maxretries_defaulted_nonzero ⟨"d", none⟩ (fun _ => true) wc9 wc9out (by decide)

/-- A valid app template with external port `p` for the C10 inputs. -/
def okApp (p : Nat) : AppConfig :=
  ⟨"a", "run \x7bport\x7d", [], "", none, "", 0, 0, 0, "", "", p, "out", "err", none⟩

/-- An app with an empty name (fails its own validation) on port 7. -/
def badApp : AppConfig :=
  ⟨"", "run \x7bport\x7d", [], "", none, "", 0, 0, 0, "", "", 7, "out", "err", none⟩

/-- The C10 failing input: two apps ending up on the same external port 7,
the second one invalid (empty name). -/
def dupCfg : Config := ⟨none, [okApp 7, badApp], none, none, none⟩

/-- C10 counterexample.  In `dupCfg` two apps end up with equal external
ports after defaulting, yet `Config.clean` returns `ErrNameRequired`, not
`ErrDuplicateExternalPort`: per-app validation errors pre-empt the
duplicate check, so the claimed "if and only if" fails as stated. -/
theorem duplicate_port_preempted :
    postDefaultPort (okApp 7) = postDefaultPort badApp ∧
    configClean (fun _ => true) dupCfg = .error .nameRequired ∧
    ConfigErr.nameRequired ≠ ConfigErr.duplicateExternalPort := by decide

lemma cleanApps_dup_iff (g : GCtx) (lu : String → Bool) :
    ∀ (apps : List AppConfig) (used : List Nat), used.Nodup →
      (∀ a ∈ apps, isOkE (appClean g lu a) = true) →
      (cleanApps g lu used apps = .error .duplicateExternalPort ↔
        ¬ (used ++ apps.map postDefaultPort).Nodup) := by
  intro apps
  induction apps with
  | nil =>
    intro used hnd _
    simp [cleanApps, hnd]
  | cons a rest ih =>
    intro used hnd hall
    have ha : isOkE (appClean g lu a) = true := hall a (by simp)
    obtain ⟨a1, ha1⟩ : ∃ a1, appClean g lu a = .ok a1 := by
      cases hc : appClean g lu a with
      | ok v => exact ⟨v, rfl⟩
      | error e => rw [hc] at ha; simp [isOkE] at ha
    have hport : a1.externalPort = postDefaultPort a := (appClean_ok_fields g lu a a1 ha1).2
    rw [show cleanApps g lu used (a :: rest) =
        (match appClean g lu a with
          | .error e => .error e
          | .ok a1 =>
            if a1.externalPort ∈ used then .error .duplicateExternalPort
            else (cleanApps g lu (a1.externalPort :: used) rest).map (a1 :: ·)) from rfl,
      ha1]
    dsimp only
    by_cases hmem : a1.externalPort ∈ used
    · rw [if_pos hmem]
      constructor
      · intro _
        intro hnodup
        rcases List.nodup_append.mp hnodup with ⟨_, _, hdisj⟩
        rw [hport] at hmem
        exact hdisj hmem (by simp)
      · intro _
        rfl
    · rw [if_neg hmem]
      have hmap : ∀ (r : Except ConfigErr (List AppConfig)),
          (r.map (a1 :: ·) = .error .duplicateExternalPort ↔
            r = .error .duplicateExternalPort) := by
        intro r
        cases r <;> simp [Except.map]
      rw [hmap]
      have hnd1 : (a1.externalPort :: used).Nodup := by
        simp [List.nodup_cons, hmem, hnd]
      rw [ih (a1.externalPort :: used) hnd1 (fun x hx => hall x (by simp [hx])), hport]
      rw [List.map_cons]
      constructor
      · intro hh hcontra
        exact hh (by
          have hperm : (postDefaultPort a :: used ++ rest.map postDefaultPort).Perm
              (used ++ postDefaultPort a :: rest.map postDefaultPort) :=
            List.perm_middle.symm
          exact (hperm.nodup_iff).mpr hcontra)
      · intro hh hcontra
        exact hh (by
          have hperm : (postDefaultPort a :: used ++ rest.map postDefaultPort).Perm
              (used ++ postDefaultPort a :: rest.map postDefaultPort) :=
            List.perm_middle.symm
          exact (hperm.nodup_iff).mp (by simpa using hcontra))

/-- C10 as amended: provided the port range, the global user and every app
individually pass their own validation, `Config.clean` returns
`ErrDuplicateExternalPort` exactly when two apps end up with equal
`ExternalPort` values after zero values are replaced by the default 8080;
when some app fails its own validation, that error is returned first and
pre-empts the duplicate check.  In particular a configuration of two or
more otherwise-valid apps that all omit `external_port` is rejected with
`ErrDuplicateExternalPort`, because each defaults to 8080. -/
theorem duplicate_port_iff_amended (lu : String → Bool) (c : Config)
    (hpr : isOkE (portRangeClean (c.portRange.getD ⟨0, 0⟩)) = true)
    (huser : userOkB lu c.user = true)
    (happs : ∀ a ∈ c.apps, isOkE (appClean (appCtx c) lu a) = true) :
    configClean lu c = .error .duplicateExternalPort ↔
      ¬ (c.apps.map postDefaultPort).Nodup := by
  obtain ⟨pr1, hpr1⟩ : ∃ p, portRangeClean (c.portRange.getD ⟨0, 0⟩) = .ok p := by
    cases hp : portRangeClean (c.portRange.getD ⟨0, 0⟩) with
    | ok v => exact ⟨v, rfl⟩
    | error e => rw [hp] at hpr; simp [isOkE] at hpr
  have hmain := cleanApps_dup_iff (appCtx c) lu c.apps [] List.nodup_nil happs
  rw [List.nil_append] at hmain
  simp only [configClean]
  rw [hpr1, huser]
  dsimp only
  rw [if_pos rfl]
  cases hca : cleanApps (appCtx c) lu [] c.apps with
  | error e =>
    rw [hca] at hmain
    dsimp only
    constructor
    · intro hh
      have he : e = ConfigErr.duplicateExternalPort := by injection hh
      exact hmain.mp (by rw [he])
    · intro hnd
      have hh := hmain.mpr hnd
      have he : e = ConfigErr.duplicateExternalPort := by injection hh
      rw [he]
  | ok apps1 =>
    rw [hca] at hmain
    dsimp only
    constructor
    · intro hh
      exact Except.noConfusion hh
    · intro hnd
      exact Except.noConfusion (hmain.mpr hnd)

/-- Witness input for the amended C10: two valid apps, both omitting
`external_port`. -/
def dupCfg2 : Config := ⟨none, [okApp 0, okApp 0], none, none, none⟩

/-- Witness for `duplicate_port_iff_amended`: two otherwise-valid apps that
both omit `external_port` default to 8080 each and are rejected as
duplicates. -/
theorem duplicate_port_iff_amended_witness :
    configClean (fun _ => true) dupCfg2 = .error .duplicateExternalPort :=
  (duplicate_port_iff_amended (fun _ => true) dupCfg2 (by decide) (by decide)
    (by decide)).mpr (by decide)
